import Mathlib

/-!
Verification of the remote execution protocol client of the
burn-remote-template repository.

The repository ships a thin example client (`examples/remote-client/src/main.rs`)
on top of a remote tensor backend.  The protocol core (connection manager,
request dispatcher, response correlator, remote handle registry, device
facade) is described by the specification; where the core's code is not part
of the repository sources, the definitions below are modelled from the spec,
as marked in their doc comments.  The example client itself is translated
from `main.rs`.
-/

namespace BurnRemote

/-- Modelled from the spec: error taxonomy of section 7, plus the hard
error for correlation-id exhaustion required by section 4.3. -/
inductive RemoteError
  | connectionError
  | connectionLost
  | protocolError
  | shapeMismatch
  | dtypeMismatch
  | staleHandle
  | remoteExecutionError
  | timeout
  | idExhausted
  deriving DecidableEq

/-- Element types carried by tensor metadata. -/
inductive DType
  | f32
  | i32
  deriving DecidableEq

/-- Shape and element type of a tensor, tracked locally per handle. -/
structure TensorMeta where
  shape : List Nat
  dtype : DType
  deriving DecidableEq

/-- Opcodes used by the example client: tensor creation (`ones`, `random`)
and the two compute operations (`add`, `matmul`) of `main.rs`. -/
inductive Opcode
  | ones
  | random
  | add
  | matmul
  deriving DecidableEq

/-- Modelled from the spec: an Operation Request — opcode, input handle
references, shape parameters, and a freshly assigned correlation id. -/
structure OperationRequest where
  opcode : Opcode
  inputs : List Nat
  params : List Nat
  cid : Nat
  deriving DecidableEq

/-- Modelled from the spec: a response payload is either a success (new
remote handle with shape/dtype metadata) or a failure descriptor. -/
inductive RespPayload
  | success (h : Nat) (meta : TensorMeta)
  | failure (e : RemoteError)
  deriving DecidableEq

/-- Modelled from the spec: an Operation Response pairs a correlation id
with its payload. -/
structure OperationResponse where
  cid : Nat
  payload : RespPayload
  deriving DecidableEq

/-- Modelled from the spec: per-connection bookkeeping — next correlation
id, the pending-slot table (correlation ids awaiting a response), the wire
(requests in transmission order), the ghost list of all assigned ids, the
pending-slot capacity bound and the correlation-id space bound. -/
structure ConnState where
  nextCorrelationId : Nat
  pending : List Nat
  wire : List OperationRequest
  assigned : List Nat
  capacity : Nat
  idSpace : Nat
  deriving DecidableEq

/-- Outcome of one dispatch call: success with the new state and the
assigned correlation id, suspension by backpressure, or a hard error. -/
inductive DispatchResult
  | ok (c : ConnState) (cid : Nat)
  | blocked
  | fatal (e : RemoteError)
  deriving DecidableEq

/-- The connection state after a successful dispatch: the next correlation
id is consumed, a pending slot is registered and the request is placed on
the wire. -/
def advance (c : ConnState) (op : Opcode) (inputs : List Nat)
    (params : List Nat) : ConnState :=
  { c with
    nextCorrelationId := c.nextCorrelationId + 1
    pending := c.pending ++ [c.nextCorrelationId]
    wire := c.wire ++ [⟨op, inputs, params, c.nextCorrelationId⟩]
    assigned := c.assigned ++ [c.nextCorrelationId] }

/-- Modelled from the spec (section 4.3): dispatch assigns the next
correlation id, registers a pending slot and enqueues the request for
transmission; it suspends the caller when the pending table is at capacity
and fails hard when the id space is exhausted. -/
def dispatch (c : ConnState) (op : Opcode) (inputs : List Nat)
    (params : List Nat) : DispatchResult :=
  if c.capacity ≤ c.pending.length then
    DispatchResult.blocked
  else if c.idSpace ≤ c.nextCorrelationId then
    DispatchResult.fatal RemoteError.idExhausted
  else
    DispatchResult.ok (advance c op inputs params) c.nextCorrelationId

/-- Modelled from the spec (section 4.4): the correlator matches an inbound
response to a pending slot by correlation id, frees the slot and delivers
the payload; an unknown correlation id is dropped. -/
def handleResponse (c : ConnState) (resp : OperationResponse) :
    ConnState × Option (Nat × RespPayload) :=
  if resp.cid ∈ c.pending then
    ({ c with pending := c.pending.erase resp.cid }, some (resp.cid, resp.payload))
  else
    (c, none)

/-- Dispatches a whole list of requests in order, stopping at the first
dispatch that does not succeed. -/
def dispatchAll : ConnState → List (Opcode × List Nat × List Nat) → ConnState
  | c, [] => c
  | c, (op, ins, ps) :: rest =>
    match dispatch c op ins ps with
    | DispatchResult.ok c' _ => dispatchAll c' rest
    | _ => c

/-- The wire messages a list of requests produces when dispatched starting
from correlation id `start`. -/
def wireOf (start : Nat) : List (Opcode × List Nat × List Nat) → List OperationRequest
  | [] => []
  | (op, ins, ps) :: rest => ⟨op, ins, ps, start⟩ :: wireOf (start + 1) rest

/-- Resolves each pending correlation id with `connectionLost`, one slot at
a time. -/
def resolveAllLost : List Nat → List (Nat × RemoteError)
  | [] => []
  | cid :: rest => (cid, RemoteError.connectionLost) :: resolveAllLost rest

/-- Modelled from the spec (section 4.4): on connection loss every
remaining pending slot is resolved with `connectionLost` and the pending
table is emptied. -/
def onConnectionLost (c : ConnState) : ConnState × List (Nat × RemoteError) :=
  ({ c with pending := [] }, resolveAllLost c.pending)

/-- Well-formedness of connection bookkeeping: every assigned id and every
pending id is below the next correlation id, and no two pending slots share
an id. -/
def WellFormed (c : ConnState) : Prop :=
  (∀ x ∈ c.assigned, x < c.nextCorrelationId) ∧
    c.pending.Nodup ∧
    ∀ x ∈ c.pending, x < c.nextCorrelationId

/-- Modelled from the spec (section 4.4): processes inbound responses in
arrival order against the pending table, delivering each matched payload
and freeing its slot; unmatched responses are dropped. -/
def correlate (pending : List Nat) : List OperationResponse → List (Nat × RespPayload)
  | [] => []
  | r :: rs =>
    if r.cid ∈ pending then
      (r.cid, r.payload) :: correlate (pending.erase r.cid) rs
    else
      correlate pending rs

/-- The payload delivered to the caller waiting on correlation id `c0`
after the responses `resps` arrived in that order. -/
def deliveredTo (pending : List Nat) (resps : List OperationResponse) (c0 : Nat) :
    Option RespPayload :=
  (correlate pending resps).lookup c0

/-- Validity state of a remote tensor handle. -/
inductive HandleState
  | valid
  | invalid
  deriving DecidableEq

/-- Modelled from the spec: an opaque reference to remote data; `gen` is
the connection generation the handle was issued under. -/
structure RemoteTensorHandle where
  id : Nat
  gen : Nat
  deriving DecidableEq

/-- Modelled from the spec (section 4.5): the registry tracks the current
connection generation, the remote ids live in that generation, and the
outbox of fire-and-forget release messages. -/
structure Registry where
  gen : Nat
  live : List Nat
  outbox : List Nat
  deriving DecidableEq

/-- Modelled from the spec (section 4.5): registering a remote id yields a
handle stamped with the current generation. -/
def register (r : Registry) (id : Nat) : Registry × RemoteTensorHandle :=
  ({ r with live := r.live ++ [id] }, ⟨id, r.gen⟩)

/-- Registers a list of remote ids in order. -/
def registerAll : Registry → List Nat → Registry
  | r, [] => r
  | r, id :: rest => registerAll (register r id).1 rest

/-- A handle is valid exactly when it belongs to the current generation and
its remote id is still live. -/
def handleState (r : Registry) (h : RemoteTensorHandle) : HandleState :=
  if h.gen = r.gen ∧ h.id ∈ r.live then HandleState.valid else HandleState.invalid

/-- Modelled from the spec (section 4.2): a reconnection invalidates every
outstanding handle — the generation is bumped and no remote id survives. -/
def reconnectInvalidate (r : Registry) : Registry :=
  { gen := r.gen + 1, live := [], outbox := r.outbox }

/-- Modelled from the spec: using a handle succeeds only while it is valid;
an invalidated handle fails with `staleHandle`. -/
def useHandle (r : Registry) (h : RemoteTensorHandle) : Except RemoteError Unit :=
  if handleState r h = HandleState.valid then Except.ok () else Except.error RemoteError.staleHandle

/-- Modelled from the spec (section 4.5): release enqueues a best-effort
free message and removes the local entry when the handle is valid, and is a
no-op otherwise; it is total, so it never returns an error. -/
def release (r : Registry) (h : RemoteTensorHandle) : Registry :=
  if handleState r h = HandleState.valid then
    { r with live := r.live.filter (fun x => x != h.id), outbox := r.outbox ++ [h.id] }
  else
    r

/-- Shape compatibility of a binary operation: equal shapes for the
elementwise add, inner-dimension agreement of two rank-2 shapes for
matmul. -/
def shapesOk (op : Opcode) (a b : TensorMeta) : Bool :=
  match op with
  | Opcode.add => a.shape == b.shape
  | Opcode.matmul =>
    match a.shape, b.shape with
    | [_, k], [k2, _] => k == k2
    | _, _ => false
  | _ => true

/-- Modelled from the spec (section 4.6): local validation of a binary
operation — dtype compatibility first, then shape compatibility. -/
def validateOp (op : Opcode) (a b : TensorMeta) : Option RemoteError :=
  if a.dtype ≠ b.dtype then some RemoteError.dtypeMismatch
  else if shapesOk op a b then none
  else some RemoteError.shapeMismatch

/-- Outcome of a facade operation call. -/
inductive CallOutcome
  | dispatched (cid : Nat)
  | localError (e : RemoteError)
  | suspended
  | failed (e : RemoteError)
  deriving DecidableEq

/-- Modelled from the spec (section 4.6): a facade call validates its
inputs locally first; only when validation passes does it dispatch, so a
validation failure is returned immediately and nothing reaches the wire. -/
def callOp (c : ConnState) (op : Opcode) (ha hb : Nat) (a b : TensorMeta) :
    ConnState × CallOutcome :=
  match validateOp op a b with
  | some e => (c, CallOutcome.localError e)
  | none =>
    match dispatch c op [ha, hb] [] with
    | DispatchResult.ok c' cid => (c', CallOutcome.dispatched cid)
    | DispatchResult.blocked => (c, CallOutcome.suspended)
    | DispatchResult.fatal e => (c, CallOutcome.failed e)

/-- Modelled from the spec (section 8): the mock remote executor echoing
deterministic fixtures — it records every request, assigns fresh handle
ids, and derives result metadata from the opcode and the recorded input
metadata. -/
structure MockExec where
  nextHandle : Nat
  table : List (Nat × TensorMeta)
  recorded : List OperationRequest
  deriving DecidableEq

/-- Result metadata the mock executor computes for one request. -/
def outMeta (m : MockExec) (req : OperationRequest) : Option TensorMeta :=
  match req.opcode with
  | Opcode.ones => some ⟨req.params, DType.f32⟩
  | Opcode.random => some ⟨req.params, DType.f32⟩
  | Opcode.add =>
    match req.inputs with
    | [h1, _] => m.table.lookup h1
    | _ => none
  | Opcode.matmul =>
    match req.inputs with
    | [h1, h2] =>
      match m.table.lookup h1, m.table.lookup h2 with
      | some ma, some mb =>
        match ma.shape, mb.shape with
        | [rows, _], [_, cols] => some ⟨[rows, cols], ma.dtype⟩
        | _, _ => none
      | _, _ => none
    | _ => none

/-- The mock executor records the request and, when it understands it,
returns a fresh handle with the computed metadata. -/
def execRequest (m : MockExec) (req : OperationRequest) :
    MockExec × Option (Nat × TensorMeta) :=
  match outMeta m req with
  | none => ({ m with recorded := m.recorded ++ [req] }, none)
  | some meta =>
    ({ nextHandle := m.nextHandle + 1
       table := m.table ++ [(m.nextHandle, meta)]
       recorded := m.recorded ++ [req] }, some (m.nextHandle, meta))

/-- Client-side connection paired with the mock executor it talks to. -/
structure Sys where
  conn : ConnState
  exec : MockExec
  deriving DecidableEq

/-- One synchronous operation as the facade performs it: dispatch the
request, let the remote executor run it, and correlate the response back,
freeing the pending slot. -/
def syncOp (s : Sys) (op : Opcode) (inputs : List Nat) (params : List Nat) :
    Option (Sys × Nat × TensorMeta) :=
  match dispatch s.conn op inputs params with
  | DispatchResult.ok c' cid =>
    match execRequest s.exec ⟨op, inputs, params, cid⟩ with
    | (m', some (h, meta)) =>
      some (⟨{ c' with pending := c'.pending.erase cid }, m'⟩, h, meta)
    | (_, none) => none
  | _ => none

/-- Whether an opcode is a compute operation (as opposed to tensor
creation). -/
def isComputeOp : Opcode → Bool
  | Opcode.add => true
  | Opcode.matmul => true
  | _ => false

/-- The example client of `main.rs` run against the mock executor: create a
3×3 ones tensor and a 3×3 random tensor, then compute the elementwise sum
and the matrix product, returning the two result metadatas, the compute
requests the executor recorded, and the two input handle ids. -/
def runExample :
    Option (TensorMeta × TensorMeta × List OperationRequest × Nat × Nat) := do
  let s0 : Sys :=
    ⟨⟨0, [], [], [], 16, 2 ^ 64⟩, ⟨0, [], []⟩⟩
  let (s1, ha, _) ← syncOp s0 Opcode.ones [] [3, 3]
  let (s2, hb, _) ← syncOp s1 Opcode.random [] [3, 3]
  let (s3, _, mc) ← syncOp s2 Opcode.add [ha, hb] []
  let (s4, _, md) ← syncOp s3 Opcode.matmul [ha, hb] []
  return (mc, md, s4.exec.recorded.filter (fun r => isComputeOp r.opcode), ha, hb)

/-- Error cases of reading an environment variable, as in Rust's
`std::env::var`. -/
inductive VarError
  | notPresent
  | notUnicode
  deriving DecidableEq

/-- From `main.rs` lines 29-30: the endpoint is the value of
`REMOTE_BACKEND_URL` when readable, and the localhost default otherwise. -/
def resolveUrl : Except VarError String → String
  | Except.ok v => v
  | Except.error _ => "ws://localhost:3000"

/-- C10: when `REMOTE_BACKEND_URL` is unset or unreadable the client uses
the endpoint `ws://localhost:3000`; when it is set its value is used
verbatim. -/
theorem c10_default_endpoint :
    (∀ e : VarError, resolveUrl (Except.error e) = "ws://localhost:3000") ∧
      ∀ s : String, resolveUrl (Except.ok s) = s := by
  constructor
  · intro e; rfl
  · intro s; rfl

theorem resolveAllLost_length (l : List Nat) : (resolveAllLost l).length = l.length := by
  induction l with
  | nil => rfl
  | cons cid rest ih => simp [resolveAllLost, ih]

theorem resolveAllLost_mem {l : List Nat} {cid : Nat} (h : cid ∈ l) :
    (cid, RemoteError.connectionLost) ∈ resolveAllLost l := by
  induction l with
  | nil => cases h
  | cons x rest ih =>
    cases h with
    | head => exact List.mem_cons_self _ _
    | tail _ hm => exact List.mem_cons_of_mem _ (ih hm)

/-- C5: on connection loss with any number of pending requests, every
pending slot is resolved with `connectionLost` (one resolution per slot)
and the pending table is emptied, so no caller stays blocked. -/
theorem c5_connection_loss_resolves_all (c : ConnState) :
    (onConnectionLost c).1.pending = [] ∧
      (onConnectionLost c).2.length = c.pending.length ∧
      ∀ cid ∈ c.pending, (cid, RemoteError.connectionLost) ∈ (onConnectionLost c).2 := by
  refine ⟨rfl, resolveAllLost_length c.pending, ?_⟩
  intro cid h
  exact resolveAllLost_mem h

theorem dispatch_ok_of_lt {c : ConnState} (op : Opcode) (ins ps : List Nat)
    (h1 : c.pending.length < c.capacity) (h2 : c.nextCorrelationId < c.idSpace) :
    dispatch c op ins ps = DispatchResult.ok (advance c op ins ps) c.nextCorrelationId := by
  unfold dispatch
  rw [if_neg (not_le.mpr h1), if_neg (not_le.mpr h2)]

/-- C2: for every sequence of requests dispatched on one connection (all of
them admissible under the capacity and id-space bounds), the wire carries
exactly those requests, in dispatch order, with consecutively assigned
correlation ids. -/
theorem c2_wire_order_eq_dispatch_order (c : ConnState)
    (ops : List (Opcode × List Nat × List Nat))
    (hcap : c.pending.length + ops.length ≤ c.capacity)
    (hid : c.nextCorrelationId + ops.length ≤ c.idSpace) :
    (dispatchAll c ops).wire = c.wire ++ wireOf c.nextCorrelationId ops := by
  induction ops generalizing c with
  | nil => simp [dispatchAll, wireOf]
  | cons head rest ih =>
    obtain ⟨op, ins, ps⟩ := head
    rw [List.length_cons] at hcap hid
    have h1 : c.pending.length < c.capacity := by omega
    have h2 : c.nextCorrelationId < c.idSpace := by omega
    rw [dispatchAll, dispatch_ok_of_lt op ins ps h1 h2]
    have hrec := ih (advance c op ins ps)
      (by simp [advance]; omega) (by simp [advance]; omega)
    rw [hrec]
    simp [advance, wireOf]

/-- C2 witness: two concrete requests dispatched from a fresh connection
appear on the wire in dispatch order with correlation ids 0 and 1. -/
theorem c2_witness :
    (dispatchAll ⟨0, [], [], [], 4, 100⟩
        [(Opcode.ones, [], [3, 3]), (Opcode.add, [0, 1], [])]).wire =
      [] ++ wireOf 0 [(Opcode.ones, [], [3, 3]), (Opcode.add, [0, 1], [])] :=
  c2_wire_order_eq_dispatch_order ⟨0, [], [], [], 4, 100⟩
    [(Opcode.ones, [], [3, 3]), (Opcode.add, [0, 1], [])] (by decide) (by decide)

/-- C7: under well-formed bookkeeping, a successful dispatch assigns the
current next correlation id — strictly greater than every previously
assigned id — and preserves well-formedness (so no two live requests share
an id); when the id space is exhausted, dispatch fails hard with
`idExhausted` instead of reusing an id. -/
theorem c7_correlation_id_monotone (c : ConnState) (op : Opcode) (ins ps : List Nat)
    (hwf : WellFormed c) :
    (c.pending.length < c.capacity → c.nextCorrelationId < c.idSpace →
        dispatch c op ins ps =
            DispatchResult.ok (advance c op ins ps) c.nextCorrelationId ∧
          (∀ x ∈ c.assigned, x < c.nextCorrelationId) ∧
          WellFormed (advance c op ins ps)) ∧
      (c.idSpace ≤ c.nextCorrelationId → c.pending.length < c.capacity →
        dispatch c op ins ps = DispatchResult.fatal RemoteError.idExhausted) := by
  obtain ⟨ha, hnd, hp⟩ := hwf
  constructor
  · intro h1 h2
    refine ⟨dispatch_ok_of_lt op ins ps h1 h2, ha, ?_, ?_, ?_⟩
    · intro x hx
      simp only [advance, List.mem_append, List.mem_singleton] at hx
      cases hx with
      | inl hx => exact Nat.lt_succ_of_lt (ha x hx)
      | inr hx => simp [advance, hx]
    · have hnew : c.nextCorrelationId ∉ c.pending := fun hmem =>
        lt_irrefl _ (hp _ hmem)
      simp only [advance]
      rw [List.nodup_append]
      exact ⟨hnd, List.nodup_singleton _, by
        intro x hx
        simp only [List.mem_singleton]
        intro he
        exact hnew (he ▸ hx)⟩
    · intro x hx
      simp only [advance, List.mem_append, List.mem_singleton] at hx
      cases hx with
      | inl hx => exact Nat.lt_succ_of_lt (hp x hx)
      | inr hx => simp [advance, hx]
  · intro hex hlt
    unfold dispatch
    rw [if_neg (not_le.mpr hlt), if_pos hex]

/-- C7 witness: from a concrete well-formed connection state, dispatch
assigns correlation id 5 and keeps the state well-formed, and an exhausted
id space yields the hard error. -/
theorem c7_witness :
    (dispatch ⟨5, [1, 3], [], [0, 4], 10, 100⟩ Opcode.add [] [] =
        DispatchResult.ok (advance ⟨5, [1, 3], [], [0, 4], 10, 100⟩ Opcode.add [] []) 5 ∧
      WellFormed (advance ⟨5, [1, 3], [], [0, 4], 10, 100⟩ Opcode.add [] [])) ∧
      dispatch ⟨100, [1], [], [0], 10, 100⟩ Opcode.add [] [] =
        DispatchResult.fatal RemoteError.idExhausted := by
  have h1 := c7_correlation_id_monotone ⟨5, [1, 3], [], [0, 4], 10, 100⟩ Opcode.add [] []
    ⟨by decide, by decide, by decide⟩
  have h2 := c7_correlation_id_monotone ⟨100, [1], [], [0], 10, 100⟩ Opcode.add [] []
    ⟨by decide, by decide, by decide⟩
  exact ⟨⟨(h1.1 (by decide) (by decide)).1, (h1.1 (by decide) (by decide)).2.2⟩,
    h2.2 (by decide) (by decide)⟩

/-- C6: with the pending table at its capacity bound, dispatch suspends the
caller; a successful dispatch never pushes the pending count past the
bound; and once the correlator frees a slot by matching a response, the
previously blocked dispatch succeeds. -/
theorem c6_backpressure (c : ConnState) (op : Opcode) (ins ps : List Nat)
    (resp : OperationResponse)
    (hfull : c.pending.length = c.capacity)
    (hmem : resp.cid ∈ c.pending)
    (hid : c.nextCorrelationId < c.idSpace) :
    dispatch c op ins ps = DispatchResult.blocked ∧
      (∀ d : ConnState, d.pending.length ≤ d.capacity →
        ∀ d' cid, dispatch d op ins ps = DispatchResult.ok d' cid →
          d'.pending.length ≤ d.capacity) ∧
      dispatch ((handleResponse c resp).1) op ins ps =
        DispatchResult.ok (advance ((handleResponse c resp).1) op ins ps)
          c.nextCorrelationId := by
  refine ⟨?_, ?_, ?_⟩
  · unfold dispatch
    rw [if_pos (le_of_eq hfull.symm)]
  · intro d hle d' cid hok
    unfold dispatch at hok
    by_cases h1 : d.capacity ≤ d.pending.length
    · rw [if_pos h1] at hok; cases hok
    · rw [if_neg h1] at hok
      by_cases h2 : d.idSpace ≤ d.nextCorrelationId
      · rw [if_pos h2] at hok; cases hok
      · rw [if_neg h2] at hok
        injection hok with hd' _
        subst hd'
        simp only [advance, List.length_append, List.length_singleton]
        omega
  · have hres : (handleResponse c resp).1 = { c with pending := c.pending.erase resp.cid } := by
      unfold handleResponse
      rw [if_pos hmem]
    rw [hres]
    have hpos : 0 < c.pending.length := List.length_pos.mpr
      (List.ne_nil_of_mem hmem)
    have hlen : (c.pending.erase resp.cid).length = c.pending.length - 1 :=
      List.length_erase_of_mem hmem
    exact dispatch_ok_of_lt op ins ps (by simp [hlen]; omega) hid

/-- C6 witness: a connection with one pending slot and capacity one blocks
a new dispatch, and the dispatch succeeds after the pending response is
correlated. -/
theorem c6_witness :
    dispatch ⟨1, [0], [], [0], 1, 10⟩ Opcode.add [] [] = DispatchResult.blocked ∧
      dispatch ((handleResponse ⟨1, [0], [], [0], 1, 10⟩
            ⟨0, RespPayload.failure RemoteError.timeout⟩).1) Opcode.add [] [] =
        DispatchResult.ok
          (advance ((handleResponse ⟨1, [0], [], [0], 1, 10⟩
            ⟨0, RespPayload.failure RemoteError.timeout⟩).1) Opcode.add [] []) 1 := by
  have h := c6_backpressure ⟨1, [0], [], [0], 1, 10⟩ Opcode.add [] []
    ⟨0, RespPayload.failure RemoteError.timeout⟩ (by decide) (by decide) (by decide)
  exact ⟨h.1, h.2.2⟩

theorem correlate_cons (pending : List Nat) (r : OperationResponse)
    (rs : List OperationResponse) :
    correlate pending (r :: rs) =
      if r.cid ∈ pending then
        (r.cid, r.payload) :: correlate (pending.erase r.cid) rs
      else correlate pending rs := rfl

theorem deliveredTo_nil (pending : List Nat) (c0 : Nat) :
    deliveredTo pending [] c0 = none := rfl

theorem deliveredTo_cons_mem_eq {pending : List Nat} {r : OperationResponse}
    (rs : List OperationResponse) (hr : r.cid ∈ pending) :
    deliveredTo pending (r :: rs) r.cid = some r.payload := by
  unfold deliveredTo
  rw [correlate_cons, if_pos hr]
  simp [List.lookup]

theorem deliveredTo_cons_mem_ne {pending : List Nat} {r : OperationResponse} {c0 : Nat}
    (rs : List OperationResponse) (hr : r.cid ∈ pending) (hc : c0 ≠ r.cid) :
    deliveredTo pending (r :: rs) c0 = deliveredTo (pending.erase r.cid) rs c0 := by
  unfold deliveredTo
  rw [correlate_cons, if_pos hr]
  have hne : (c0 == r.cid) = false := beq_eq_false_iff_ne.mpr hc
  simp [List.lookup, hne]

theorem deliveredTo_cons_not_mem {pending : List Nat} {r : OperationResponse} {c0 : Nat}
    (rs : List OperationResponse) (hr : r.cid ∉ pending) :
    deliveredTo pending (r :: rs) c0 = deliveredTo pending rs c0 := by
  unfold deliveredTo
  rw [correlate_cons, if_neg hr]

theorem deliveredTo_eq_find (resps : List OperationResponse) :
    ∀ (pending : List Nat) (c0 : Nat),
      deliveredTo pending resps c0 =
        if c0 ∈ pending then
          (resps.find? (fun r => r.cid == c0)).map OperationResponse.payload
        else none := by
  induction resps with
  | nil =>
    intro pending c0
    rw [deliveredTo_nil]
    split <;> rfl
  | cons r rs ih =>
    intro pending c0
    by_cases hr : r.cid ∈ pending
    · by_cases hc : c0 = r.cid
      · subst hc
        rw [deliveredTo_cons_mem_eq rs hr, if_pos hr,
          List.find?_cons_of_pos _ (by simp)]
        rfl
      · rw [deliveredTo_cons_mem_ne rs hr hc, ih (pending.erase r.cid) c0]
        have hfind : List.find? (fun x : OperationResponse => x.cid == c0) (r :: rs) =
            List.find? (fun x : OperationResponse => x.cid == c0) rs :=
          List.find?_cons_of_neg rs (by
            simp only [beq_iff_eq]
            exact fun he => hc he.symm)
        rw [hfind]
        simp only [List.mem_erase_of_ne hc]
    · rw [deliveredTo_cons_not_mem rs hr, ih pending c0]
      by_cases hc : c0 ∈ pending
      · have hfind : List.find? (fun x : OperationResponse => x.cid == c0) (r :: rs) =
            List.find? (fun x : OperationResponse => x.cid == c0) rs :=
          List.find?_cons_of_neg rs (by
            simp only [beq_iff_eq]
            intro he
            exact hr (by rw [he]; exact hc))
        rw [if_pos hc, if_pos hc, hfind]
      · rw [if_neg hc, if_neg hc]

theorem find?_cid_eq_of_perm {l l' : List OperationResponse} {c0 : Nat}
    (hp : l.Perm l') (hn : (l.map OperationResponse.cid).Nodup) :
    l.find? (fun r => r.cid == c0) = l'.find? (fun r => r.cid == c0) := by
  cases hfl : l.find? (fun r => r.cid == c0) with
  | none =>
    have hnone := List.find?_eq_none.mp hfl
    cases hfl' : l'.find? (fun r => r.cid == c0) with
    | none => rfl
    | some r' =>
      have hr'mem : r' ∈ l := hp.symm.subset (List.mem_of_find?_eq_some hfl')
      have hr'p := List.find?_some hfl'
      exact absurd hr'p (hnone r' hr'mem)
  | some r =>
    have hrmem : r ∈ l := List.mem_of_find?_eq_some hfl
    have hrp := List.find?_some hfl
    cases hfl' : l'.find? (fun r => r.cid == c0) with
    | none =>
      have hnone := List.find?_eq_none.mp hfl'
      exact absurd hrp (hnone r (hp.subset hrmem))
    | some r' =>
      have hr'mem : r' ∈ l := hp.symm.subset (List.mem_of_find?_eq_some hfl')
      have hr'p := List.find?_some hfl'
      have heq : r = r' := List.inj_on_of_nodup_map hn hrmem hr'mem (by
        have h1 : r.cid = c0 := by simpa using hrp
        have h2 : r'.cid = c0 := by simpa using hr'p
        rw [h1, h2])
      rw [heq]

/-- C1: with distinct correlation ids on the in-flight responses, the
payload delivered to the caller waiting on a given correlation id is the
same for every arrival order (permutation invariance), and for a
registered pending slot it is exactly the payload of the response whose
correlation id matches. -/
theorem c1_correlation_matching_order_independent (pending : List Nat)
    (resps resps' : List OperationResponse) (c0 : Nat)
    (hn : (resps.map OperationResponse.cid).Nodup)
    (hp : resps.Perm resps') :
    deliveredTo pending resps c0 = deliveredTo pending resps' c0 ∧
      (c0 ∈ pending →
        deliveredTo pending resps c0 =
          (resps.find? (fun r => r.cid == c0)).map OperationResponse.payload) := by
  constructor
  · rw [deliveredTo_eq_find resps pending c0, deliveredTo_eq_find resps' pending c0,
      find?_cid_eq_of_perm hp hn]
  · intro hc
    rw [deliveredTo_eq_find resps pending c0, if_pos hc]

/-- C1 witness: two pending callers receive their own payloads whichever of
the two arrival orders occurs. -/
theorem c1_witness :
    deliveredTo [1, 2]
        [⟨1, RespPayload.success 10 ⟨[3, 3], DType.f32⟩⟩,
          ⟨2, RespPayload.failure RemoteError.timeout⟩] 1 =
      deliveredTo [1, 2]
        [⟨2, RespPayload.failure RemoteError.timeout⟩,
          ⟨1, RespPayload.success 10 ⟨[3, 3], DType.f32⟩⟩] 1 :=
  (c1_correlation_matching_order_independent [1, 2]
    [⟨1, RespPayload.success 10 ⟨[3, 3], DType.f32⟩⟩,
      ⟨2, RespPayload.failure RemoteError.timeout⟩]
    [⟨2, RespPayload.failure RemoteError.timeout⟩,
      ⟨1, RespPayload.success 10 ⟨[3, 3], DType.f32⟩⟩] 1
    (by decide) (by decide)).1

/-- C4: release is idempotent — a second release of the same handle leaves
the registry exactly as the first did, and releasing any handle after a
reconnect invalidation is a no-op; release is total, so it never errors. -/
theorem c4_release_idempotent :
    (∀ (r : Registry) (h : RemoteTensorHandle),
        release (release r h) h = release r h) ∧
      ∀ (r : Registry) (h : RemoteTensorHandle),
        release (reconnectInvalidate r) h = reconnectInvalidate r := by
  constructor
  · intro r h
    by_cases hv : handleState r h = HandleState.valid
    · have hrel : release r h =
          { r with live := r.live.filter (fun x => x != h.id),
                   outbox := r.outbox ++ [h.id] } := by
        unfold release
        rw [if_pos hv]
      rw [hrel]
      have hout : h.id ∉ r.live.filter (fun x => x != h.id) := by
        intro hmem
        have := (List.mem_filter.mp hmem).2
        simp at this
      unfold release
      rw [if_neg]
      unfold handleState
      rw [if_neg]
      · simp
      · intro hcon
        exact hout hcon.2
    · unfold release
      rw [if_neg hv, if_neg hv]
  · intro r h
    unfold release
    rw [if_neg]
    unfold handleState
    rw [if_neg]
    · simp
    · intro hcon
      exact List.not_mem_nil h.id hcon.2

theorem registerAll_gen (ids : List Nat) : ∀ r : Registry, (registerAll r ids).gen = r.gen := by
  induction ids with
  | nil => intro r; rfl
  | cons id rest ih => intro r; rw [registerAll, ih]; rfl

theorem handleState_invalid_of_gen_ne {r : Registry} {h : RemoteTensorHandle}
    (hne : h.gen ≠ r.gen) : handleState r h = HandleState.invalid := by
  unfold handleState
  rw [if_neg]
  intro hcon
  exact hne hcon.1

/-- C9: after a reconnect every previously issued handle (one whose
generation is at most the registry's pre-reconnect generation) is invalid,
using it fails with `staleHandle`, and it stays stale no matter which new
remote ids are registered afterwards. -/
theorem c9_reconnect_invalidates_handles (r : Registry) (h : RemoteTensorHandle)
    (ids : List Nat) (hgen : h.gen ≤ r.gen) :
    handleState (reconnectInvalidate r) h = HandleState.invalid ∧
      useHandle (reconnectInvalidate r) h = Except.error RemoteError.staleHandle ∧
      useHandle (registerAll (reconnectInvalidate r) ids) h =
        Except.error RemoteError.staleHandle := by
  have hne : h.gen ≠ (reconnectInvalidate r).gen := by
    show h.gen ≠ r.gen + 1
    omega
  have hinv : handleState (reconnectInvalidate r) h = HandleState.invalid :=
    handleState_invalid_of_gen_ne hne
  have hne' : h.gen ≠ (registerAll (reconnectInvalidate r) ids).gen := by
    rw [registerAll_gen ids (reconnectInvalidate r)]
    exact hne
  have hinv' : handleState (registerAll (reconnectInvalidate r) ids) h =
      HandleState.invalid := handleState_invalid_of_gen_ne hne'
  refine ⟨hinv, ?_, ?_⟩
  · unfold useHandle
    rw [if_neg]
    rw [hinv]
    intro hcon
    cases hcon
  · unfold useHandle
    rw [if_neg]
    rw [hinv']
    intro hcon
    cases hcon

/-- C9 witness: a handle issued before the reconnect is stale afterwards,
even after its remote id is registered again under the new generation. -/
theorem c9_witness :
    useHandle (registerAll (reconnectInvalidate ⟨0, [3], []⟩) [3]) ⟨3, 0⟩ =
      Except.error RemoteError.staleHandle :=
  (c9_reconnect_invalidates_handles ⟨0, [3], []⟩ ⟨3, 0⟩ [3] (by decide)).2.2

/-- C8: when local validation of an operation fails, the facade returns the
validation error immediately — which is always a shape or dtype mismatch —
the connection state is untouched and nothing is placed on the wire. -/
theorem c8_local_validation_no_network (c : ConnState) (op : Opcode)
    (ha hb : Nat) (a b : TensorMeta) (e : RemoteError)
    (hv : validateOp op a b = some e) :
    callOp c op ha hb a b = (c, CallOutcome.localError e) ∧
      (callOp c op ha hb a b).1.wire = c.wire ∧
      (e = RemoteError.shapeMismatch ∨ e = RemoteError.dtypeMismatch) := by
  have hcall : callOp c op ha hb a b = (c, CallOutcome.localError e) := by
    unfold callOp
    rw [hv]
  refine ⟨hcall, by rw [hcall], ?_⟩
  unfold validateOp at hv
  by_cases hd : a.dtype ≠ b.dtype
  · rw [if_pos hd] at hv
    injection hv with he
    exact Or.inr he.symm
  · rw [if_neg hd] at hv
    by_cases hs : shapesOk op a b
    · rw [if_pos hs] at hv
      cases hv
    · rw [if_neg hs] at hv
      injection hv with he
      exact Or.inl he.symm

/-- C8 witness: adding a 2-vector to a 3-vector is rejected locally with a
shape mismatch and the wire stays empty. -/
theorem c8_witness :
    callOp ⟨0, [], [], [], 16, 100⟩ Opcode.add 0 1 ⟨[2], DType.f32⟩ ⟨[3], DType.f32⟩ =
      (⟨0, [], [], [], 16, 100⟩, CallOutcome.localError RemoteError.shapeMismatch) :=
  (c8_local_validation_no_network ⟨0, [], [], [], 16, 100⟩ Opcode.add 0 1
    ⟨[2], DType.f32⟩ ⟨[3], DType.f32⟩ RemoteError.shapeMismatch (by decide)).1

/-- C3: the example client, run against the mock executor, obtains [3, 3]
result metadata for both the elementwise sum and the matrix product, the
executor records exactly two compute requests — the add and the matmul,
both referencing input handles 0 and 1 — and those are the two handles the
creations returned. -/
theorem c3_example_scenario :
    runExample =
      some (⟨[3, 3], DType.f32⟩, ⟨[3, 3], DType.f32⟩,
        [⟨Opcode.add, [0, 1], [], 2⟩, ⟨Opcode.matmul, [0, 1], [], 3⟩], 0, 1) := by
  rfl

end BurnRemote
